import Mathlib

/-!
Verification of the ElastAlert rule-execution core (`src/elastalert/elastalert.py`,
`src/elastalert/enhancements.py`) against its natural-language specification.

The Python code is shallowly embedded: timestamps are integers (seconds),
timedeltas are integers or naturals, Python dicts keyed by strings are
association lists, Elasticsearch calls are parameters (their results are
inputs, the issued requests are outputs), and exceptions are `Option`/`Except`
values.  Every definition mirrors a function of the source file named in its
doc comment.
-/

set_option autoImplicit false

namespace ElastAlert

/-- Modelled from the spec: TimeOps timestamp arithmetic (`util.py` is not under
`src/`).  `ts_delta a b` is the elapsed time from `a` to `b`, i.e. `b - a`.
This is the only reading under which every call site in `elastalert.py` agrees
with its adjacent comment or docstring (e.g. `remove_old_events` forgets ids
with `ts_delta(timestamp, now) > buffer_time`, described as "older than the
buffer time"; `is_silenced` reports an active silence when
`ts_delta(until, now) < 0`). -/
def ts_delta (a b : Int) : Int := b - a

/-- Modelled from the spec: TimeOps timestamp arithmetic (`util.py` is not under
`src/`).  `ts_add t d` adds the timedelta `d` to the timestamp `t`. -/
def ts_add (t d : Int) : Int := t + d

/-! ### Python dict model (string-keyed association lists) -/

/-- `d[k]` lookup returning `none` when the key is absent. -/
def dictGet {α : Type} : List (String × α) → String → Option α
  | [], _ => none
  | (k', v) :: t, k => if k' = k then some v else dictGet t k

/-- `k in d` membership test. -/
def dictHas {α : Type} (d : List (String × α)) (k : String) : Bool :=
  (dictGet d k).isSome

/-- `d[k] = v` assignment: overwrite an existing binding or append a new one. -/
def dictSet {α : Type} : List (String × α) → String → α → List (String × α)
  | [], k, v => [(k, v)]
  | (k', v') :: t, k, v => if k' = k then (k, v) :: t else (k', v') :: dictSet t k v

/-- `d.pop(k)` / `del d[k]`: remove the binding of `k` (first occurrence; a
Python dict has unique keys). -/
def dictDel {α : Type} : List (String × α) → String → List (String × α)
  | [], _ => []
  | (k', v') :: t, k => if k' = k then t else (k', v') :: dictDel t k


/-! ### Error-message truncation (`get_hits` lines 163-170, `get_hits_count`
lines 193-200, `get_hits_terms` lines 212-219)

All three query paths share the identical fragment
`if len(str(e)) > 1024: e = str(e)[:1024] + '... (%d characters removed)' % (len(str(e)) - 1024)`
before handing the message to logging / `handle_error`.  A Python `str` is
modelled as `List Char`. -/

/-- The truncation applied to a caught Elasticsearch error message in
`get_hits` / `get_hits_count` / `get_hits_terms`. -/
def truncate_error (e : List Char) : List Char :=
  if 1024 < e.length then
    e.take 1024 ++
      ("... (".toList ++ Nat.toDigits 10 (e.length - 1024) ++ " characters removed)".toList)
  else e

/-! ### Enhancement processing inside `alert` (`elastalert.py` lines 677-682,
`enhancements.py` lines 44-46)

`alert` runs `enhancement.process(match)` for every configured enhancement and
every match, catching only `EAException`.  `DropMatchException` (declared in
`enhancements.py` as the drop-match sentinel) is a direct subclass of
`Exception`, not of `EAException`, and `elastalert.py` never mentions it, so it
is modelled as a distinct uncaught exception kind.  `process` either returns
the (possibly mutated) match or raises. -/

inductive PyExc where
  /-- `util.EAException`, the only type caught by the enhancement loop. -/
  | eaException
  /-- `enhancements.DropMatchException`, the drop-match sentinel. -/
  | dropMatch
deriving DecidableEq, Repr

/-- The inner `for match in matches` loop of `alert`: one enhancement applied
to every match, `EAException` logged via `handle_error` and the match kept
as-is, any other exception propagating. -/
def enhance_all (proc : String → Except PyExc String) :
    List String → Except PyExc (List String)
  | [] => .ok []
  | m :: ms =>
    match proc m with
    | .ok m2 => (enhance_all proc ms).map (m2 :: ·)
    | .error .eaException => (enhance_all proc ms).map (m :: ·)
    | .error e => .error e

/-- The `for enhancement in rule['match_enhancements']` loop of `alert`
(lines 677-682): each enhancement is applied to every match in order; an
uncaught exception aborts `alert` itself. -/
def alert_enhancement_phase (enhs : List (String → Except PyExc String))
    (ms : List String) : Except PyExc (List String) :=
  enhs.foldl
    (fun acc enh =>
      match acc with
      | .error e => .error e
      | .ok cur => enhance_all enh cur)
    (.ok ms)

/-! ### Query bodies (`get_query` lines 108-126, `get_terms_query` lines
128-134) -/

/-- JSON-like values, modelling the Python dict/list query bodies.  Objects
keep insertion order, as the code builds them. -/
inductive J where
  | str : String → J
  | num : Int → J
  | arr : List J → J
  | obj : List (String × J) → J

/-- `q[k] = v` on a JSON object (identity on other values, which never occurs
in the modelled code). -/
def jSet (q : J) (k : String) (v : J) : J :=
  match q with
  | J.obj fs => J.obj (dictSet fs k v)
  | other => other

/-- `q.pop(k)` on a JSON object. -/
def jDel (q : J) (k : String) : J :=
  match q with
  | J.obj fs => J.obj (dictDel fs k)
  | other => other

/-- `get_query(filters, starttime, endtime, sort, timestamp_field)`: the base
filtered query.  `times = some (s, e)` models truthy `starttime and endtime`. -/
def get_query (filters : List J) (times : Option (Int × Int)) (sortQ : Bool)
    (timestamp_field : String) : J :=
  let must :=
    match times with
    | some (s, e) =>
        filters ++ [J.obj [("range", J.obj [(timestamp_field,
          J.obj [("from", J.num s), ("to", J.num e)])])]]
    | none => filters
  let query := J.obj [("filter", J.obj [("bool", J.obj [("must", J.arr must)])])]
  if sortQ then
    jSet query "sort" (J.arr [J.obj [(timestamp_field, J.obj [("order", J.str "asc")])]])
  else query

/-- `get_terms_query(query, size, field)`: pop `sort`, add the `counts` terms
aggregation, wrap under `aggs.filtered`. -/
def get_terms_query (query : J) (size : Nat) (field : String) : J :=
  let q1 := jDel query "sort"
  let q2 := jSet q1 "aggs"
    (J.obj [("counts", J.obj [("terms",
      J.obj [("field", J.str field), ("size", J.num size)])])])
  J.obj [("aggs", J.obj [("filtered", q2)])]

/-! ### Rule configuration and the query paths (`get_hits` lines 154-178,
`get_hits_terms` lines 208-226, `run_query` lines 248-290,
`remove_duplicate_events` lines 228-236) -/

/-- The rule-configuration fields read by the query paths.  `max_query_size`
is the optional per-rule override read by `run_query` line 264. -/
structure Rule where
  name : String
  filter : List J
  timestamp_field : String
  doc_type : String
  /-- `rule['include']` (`include` is a reserved word in Lean). -/
  include_fields : List String
  max_query_size : Option Nat
  terms_size : Nat
  query_key : String

/-- `rule.get('max_query_size', self.max_query_size)` (`run_query` line 264). -/
def rule_max_size (rule : Rule) (globalMax : Nat) : Nat :=
  rule.max_query_size.getD globalMax

/-- A `current_es.search` request as issued by `get_hits`. -/
structure SearchCall where
  index : String
  size : Nat
  body : J
  source_include : List String

/-- The search request issued by `get_hits` (line 164): note `size` is
`self.max_query_size`, the engine-wide setting. -/
def get_hits_request (globalMax : Nat) (rule : Rule) (starttime endtime : Int)
    (index : String) : SearchCall :=
  { index := index
    size := globalMax
    body := get_query rule.filter (some (starttime, endtime)) true rule.timestamp_field
    source_include := rule.include_fields }

/-- A `current_es.search` request as issued by `get_hits_terms` (line 213). -/
structure TermsCall where
  index : String
  doc_type : String
  body : J
  search_type : String

/-- The terms request issued by `get_hits_terms` (lines 209-213): base query
built without sort, wrapped by `get_terms_query` on `rule['query_key']` with
size `rule['terms_size']`, issued with `search_type='count'`. -/
def get_hits_terms_request (rule : Rule) (starttime endtime : Int)
    (index : String) : TermsCall :=
  { index := index
    doc_type := rule.doc_type
    body := get_terms_query
      (get_query rule.filter (some (starttime, endtime)) false rule.timestamp_field)
      rule.terms_size rule.query_key
    search_type := "count" }

/-- A returned hit's `_source` document; `ts` models the
`_source[rule['timestamp_field']]` lookup, `payload` the rest. -/
structure Src where
  ts : Int
  payload : String
deriving DecidableEq, Repr

/-- A returned hit: `_id` and `_source`. -/
structure Hit where
  id : String
  src : Src
deriving DecidableEq, Repr

/-- `remove_duplicate_events(data, rule)` (lines 228-236): drop hits whose
`_id` is in `rule['processed_hits']`, record surviving ids mapped to their
timestamps, return the surviving `_source`s in order together with the updated
`processed_hits`. -/
def remove_duplicate_events (data : List Hit) (processed_hits : List (String × Int)) :
    List Src × List (String × Int) :=
  let data2 := data.filter (fun ev => !(dictHas processed_hits ev.id))
  let ph2 := data2.foldl (fun d ev => dictSet d ev.id ev.src.ts) processed_hits
  (data2.map Hit.src, ph2)

/-- The hits-mode body of `run_query` (lines 270-284): `hits = none` models a
search failure (`get_hits` returned `None`); the first component is the
argument passed to `rule_inst.add_data`, `none` meaning it was not called; the
last component is `run_query`'s return value. -/
def run_query_hits (hits : Option (List Hit)) (processed_hits : List (String × Int)) :
    Option (List Src) × List (String × Int) × Bool :=
  match hits with
  | none => (none, processed_hits, false)
  | some data =>
    if data.isEmpty then (none, processed_hits, true)
    else
      let (docs, ph2) := remove_duplicate_events data processed_hits
      (if docs.isEmpty then none else some docs, ph2, true)

/-- The terms-mode body of `run_query` (lines 268-282): on success
`get_hits_terms` returns the dict `{endtime: buckets}`, which is always truthy,
so `add_terms_data` receives exactly `(endtime, buckets)`. -/
def run_query_terms (endtime : Int) (buckets : Option (List J)) :
    Option (Int × List J) × Bool :=
  match buckets with
  | none => (none, false)
  | some bs => (some (endtime, bs), true)

/-! ### Chunked rule execution (`run_rule` lines 336-425, `set_starttime`
lines 318-334) and the scheduler loop (`start` lines 499-556)

Only the checkpoint (`rule['starttime']`) flow is modelled: the queries
actually executed, the final checkpoint, and whether the per-tick
`elastalert_status` record is written.  `run_query` successes/failures are an
input predicate `q start end`. -/

/-- The query loop of `run_rule` (lines 367-376): while
`ts_delta(starttime, endtime) > buffer_time`, run a chunk
`[starttime, starttime + run_every]` and advance the checkpoint on success;
finally run `[starttime, endtime]`.  Returns the final checkpoint, the
executed `(start, end)` queries in order, and whether the tick completed
(on `False` from `run_query` the code returns `0` immediately, skipping the
status writeback at line 423).

The Python loop's only termination argument is that `run_every` is a positive
timedelta; the recursion is paid for by `fuel`, and `run_rule_tick` below
supplies `(endtime - start).toNat`, which `run_rule_chunks_fuel_enough` proves
sufficient whenever `0 < runEvery`, so the fuel-exhaustion branch is
unreachable on the inputs the program produces. -/
def run_rule_chunks (fuel : Nat) (runEvery bufferTime : Nat) (q : Int → Int → Bool)
    (start endtime : Int) : Int × List (Int × Int) × Bool :=
  if (bufferTime : Int) < ts_delta start endtime then
    match fuel with
    | 0 => (start, [], false)
    | fuel2 + 1 =>
      let tmp := ts_add start runEvery
      if q start tmp then
        let rest := run_rule_chunks fuel2 runEvery bufferTime q tmp endtime
        (rest.1, (start, tmp) :: rest.2.1, rest.2.2)
      else (start, [(start, tmp)], false)
  else
    (start, [(start, endtime)], q start endtime)

/-- The expected chunk sequence: `n` consecutive windows of length `r`
starting at `start`. -/
def chunkList (start : Int) (r : Nat) : Nat → List (Int × Int)
  | 0 => []
  | n + 1 => (start, start + (r : Int)) :: chunkList (start + (r : Int)) r n

/-- `set_starttime(rule, endtime)` (lines 318-334), restricted to its effect on
`rule['starttime']`.  `recovered` is the result of the `get_starttime`
Elasticsearch lookup (consulted only when the rule has no checkpoint yet);
`lookback` is `buffer_time` for hit rules and `run_every` for count/terms
rules. -/
def set_starttime (recovered : Option Int) (lookback : Nat) (endtime : Int)
    (current : Option Int) : Int :=
  match current, recovered with
  | none, some t => t
  | _, _ => ts_add endtime (-(lookback : Int))

/-- `run_rule(rule, endtime, starttime)` restricted to the checkpoint flow
(lines 353-376 and the status writeback at line 423): force the checkpoint to
`starttime` when given, else call `set_starttime`; refuse future start times
(lines 361-363); otherwise run the chunk loop.  Returns the rule's final
`starttime`, the executed queries, and whether the status record was
written. -/
def run_rule_tick (runEvery bufferTime : Nat) (recovered : Option Int)
    (q : Int → Int → Bool) (now endtime : Int) (forced : Option Int)
    (current : Option Int) : Int × List (Int × Int) × Bool :=
  let start0 :=
    match forced with
    | some s => s
    | none => set_starttime recovered bufferTime endtime current
  if ts_delta start0 now ≤ 0 then (start0, [], false)
  else
    run_rule_chunks (ts_delta start0 endtime).toNat runEvery bufferTime q start0 endtime

/-- One iteration of the `start` loop (lines 508-556) for a single rule,
restricted to the handling of the loop-local `starttime` variable: the rule is
run with the current forced start, and `starttime = None` (line 548) is
executed only when the tick did not overrun `run_every` — the early
`continue` at line 545 skips it.  Returns the forced start carried into the
next iteration, the rule's new checkpoint, and the status-written flag. -/
def scheduler_tick (runEvery bufferTime : Nat) (recovered : Option Int)
    (q : Int → Int → Bool) (now endtime : Int) (overran : Bool)
    (forced : Option Int) (current : Option Int) :
    Option Int × Int × Bool :=
  let t := run_rule_tick runEvery bufferTime recovered q now endtime forced current
  (if overran then forced else none, t.1, t.2.2)

/-! ### Alert bodies and aggregation (`get_alert_body` lines 714-725,
`add_aggregated_alert` lines 831-858) -/

/-- The rule fields read by `get_alert_body` and `add_aggregated_alert`:
`rule['name']`, `rule['alert'][0].get_info()` (opaque here) and
`rule['aggregation']`. -/
structure AggRule where
  name : String
  alert_info : String
  aggregation : Int

/-- A match drained from the detector: `ts` models
`ts_to_dt(match[rule['timestamp_field']])`, `body` the document itself. -/
structure MatchDoc where
  ts : Int
  body : String
deriving DecidableEq, Repr

/-- An `elastalert` writeback document (AlertRecord). `aggregate_id = none`
models the key being absent. -/
structure AlertBody where
  rule_name : String
  match_body : String
  alert_info : String
  alert_sent : Bool
  alert_time : Int
  alert_exception : Option String
  aggregate_id : Option String
deriving DecidableEq, Repr

/-- `get_alert_body(match, rule, alert_sent, alert_time, alert_exception)`
(lines 714-725): `alert_exception` is recorded only when the alert was not
sent. -/
def get_alert_body (rule : AggRule) (m : MatchDoc) (alert_sent : Bool)
    (alert_time : Int) (alert_exception : Option String) : AlertBody :=
  { rule_name := rule.name
    match_body := m.body
    alert_info := rule.alert_info
    alert_sent := alert_sent
    alert_time := alert_time
    alert_exception := if alert_sent then none else alert_exception
    aggregate_id := none }

/-- The per-rule aggregation runtime: `rule['current_aggregate_id']`,
`rule['aggregate_alert_time']` (absent until first set — reading it while
absent is a `KeyError`), and `rule['agg_matches']`. -/
structure AggState where
  current_aggregate_id : Option String
  aggregate_alert_time : Option Int
  agg_matches : List MatchDoc
deriving DecidableEq, Repr

/-- `add_aggregated_alert(match, rule)` (lines 831-858).  `wb` models
`self.writeback('elastalert', body)` (`none` = falsy result: debug mode,
dead client, or Elasticsearch error).  Returns the new aggregation state,
`writeback`'s result (the method's return value), and the persisted body.
The outer `none` is the `KeyError` raised when `current_aggregate_id` is set
but `aggregate_alert_time` is absent — unreachable in program runs, since the
first branch always sets `aggregate_alert_time`. -/
def add_aggregated_alert (wb : AlertBody → Option String) (rule : AggRule)
    (m : MatchDoc) (s : AggState) : Option (AggState × Option String × AlertBody) :=
  let newWindow : AggState × Option String × AlertBody :=
    -- First match (or expired window): alert_time = match_time + aggregation
    let alert_time := m.ts + rule.aggregation
    let s1 := { s with aggregate_alert_time := some alert_time }
    let body := get_alert_body rule m false alert_time none
    let res := wb body
    let s2 :=
      match res with
      | some rid => { s1 with current_aggregate_id := some rid }
      | none => { s1 with agg_matches := s1.agg_matches ++ [m] }
    (s2, res, body)
  match s.current_aggregate_id, s.aggregate_alert_time with
  | none, _ => some newWindow
  | some _, none => none
  | some aid, some ft =>
    if ft < m.ts then some newWindow
    else
      -- Already pending aggregation: reuse alert_time, attach aggregate_id
      let body0 := get_alert_body rule m false ft none
      let body := { body0 with aggregate_id := some aid }
      let res := wb body
      let s2 :=
        match res with
        | some _ => s
        | none => { s with agg_matches := s.agg_matches ++ [m] }
      some (s2, res, body)

/-! ### Pending-alert retry (`find_recent_pending_alerts` lines 744-760,
`get_aggregated_matches` lines 813-829, `send_pending_alerts` lines 762-811) -/

/-- A persisted `elastalert` document as read back from the writeback index:
`rid` is the Elasticsearch `_id`; optional fields model `_source` keys whose
absence makes the `pop` calls raise `KeyError`. -/
structure AlertRec where
  rid : String
  rule_name : Option String
  alert_time : Option Int
  match_body : Option String
  aggregate_id : Option String
  alert_sent : Bool
deriving DecidableEq, Repr

/-- `find_recent_pending_alerts(time_limit)` (lines 744-760): documents with
`alert_sent:false` and `alert_time` in `[now - time_limit, now]`, capped at
the search size of 1000.  A document lacking `alert_time` is not matched by
the range filter. -/
def find_recent_pending_alerts (store : List AlertRec) (now : Int) (timeLimit : Nat) :
    List AlertRec :=
  (store.filter (fun r =>
    !r.alert_sent &&
      match r.alert_time with
      | some t => decide (now - (timeLimit : Int) ≤ t) && decide (t ≤ now)
      | none => false)).take 1000

/-- The `agg_match['match_body']` projections of the sibling records gathered
by `get_aggregated_matches`; `none` models the `KeyError` raised when a
sibling lacks `match_body`. -/
def sib_bodies (sibs : List AlertRec) : Option (List String) :=
  sibs.mapM (fun r => r.match_body)

/-- One delivered batch: the rule it goes to, the match bodies in order, and
the `alert_time` passed to `alert`. -/
structure Delivery where
  rule_name : String
  bodies : List String
  alert_time : Int
deriving DecidableEq, Repr

/-- The body of the `for alert in pending_alerts` loop of `send_pending_alerts`
(lines 764-804) for one record `p`: skip on missing fields, on an
`aggregate_id`, or on an unloaded rule; when `ts_delta(alert_time, now) > 0`
deliver `[match_body] + sibling match bodies` (siblings: records whose
`aggregate_id` equals `p`'s `_id`, deleted by `get_aggregated_matches`) and
delete the record.  Returns the store after the iteration and the delivery
made, `none` overall modelling an uncaught `KeyError` on a sibling. -/
def process_pending (rules : List String) (now : Int) (p : AlertRec)
    (store : List AlertRec) : Option (List AlertRec × Option Delivery) :=
  match p.rule_name, p.alert_time, p.match_body with
  | some rn, some t, some mb =>
    if p.aggregate_id.isSome then some (store, none)
    else if rules.contains rn then
      if 0 < ts_delta t now then
        let sibs := store.filter (fun r => r.aggregate_id == some p.rid)
        match sib_bodies sibs with
        | none => none
        | some bs =>
          let store2 := (store.filter (fun r => !(r.aggregate_id == some p.rid))).filter
            (fun r => !(r.rid == p.rid))
          some (store2, some { rule_name := rn, bodies := mb :: bs, alert_time := t })
      else some (store, none)
    else some (store, none)
  | _, _, _ => some (store, none)

/-- `send_pending_alerts` (persisted-record part, lines 762-804): iterate
`process_pending` over `find_recent_pending_alerts`, threading the store. -/
def send_pending_alerts (rules : List String) (now : Int) (timeLimit : Nat)
    (store : List AlertRec) : Option (List AlertRec × List Delivery) :=
  (find_recent_pending_alerts store now timeLimit).foldlM
    (fun (acc : List AlertRec × List Delivery) p => do
      let (st, d) ← process_pending rules now p acc.1
      pure (st, acc.2 ++ d.toList))
    (store, [])

/-! ### Silences (`set_realert` lines 883-889, `is_silenced` lines 891-917,
`writeback` lines 727-742) -/

/-- A persisted `silence` document; `untilTs` models its `until` field. -/
structure SilenceRec where
  rule_name : String
  untilTs : Int
deriving DecidableEq, Repr

/-- The `writeback_es.search(doc_type='silence', size=1, sort until desc)`
of `is_silenced`: the record for `key` with the greatest `until`. -/
def newest_silence (store : List SilenceRec) (key : String) : Option SilenceRec :=
  (store.filter (fun r => r.rule_name == key)).foldl
    (fun acc r =>
      match acc with
      | none => some r
      | some b => if b.untilTs < r.untilTs then some r else some b)
    none

/-- `is_silenced(rule_name)` (lines 891-917).  `store = none` models the
writeback client being dead or the search raising (both return `False` with
the cache untouched).  Returns the verdict and the updated
`silence_cache`. -/
def is_silenced (cache : List (String × Int)) (store : Option (List SilenceRec))
    (now : Int) (key : String) : Bool × List (String × Int) :=
  match dictGet cache key with
  | some u =>
    if ts_delta u now < 0 then (true, cache)
    else (false, dictDel cache key)
  | none =>
    match store with
    | none => (false, cache)
    | some recs =>
      match newest_silence recs key with
      | some rec =>
        if ts_delta rec.untilTs now < 0 then (true, dictSet cache key rec.untilTs)
        else (false, cache)
      | none => (false, cache)

/-- The expiry the claim's "recorded expiry" refers to: the cached value if
present, else the newest persisted silence for the key. -/
def silence_expiry (cache : List (String × Int)) (recs : List SilenceRec)
    (key : String) : Option Int :=
  match dictGet cache key with
  | some u => some u
  | none => (newest_silence recs key).map SilenceRec.untilTs

/-- `writeback(doc_type, body)` (lines 727-742) restricted to its result: in
debug mode nothing is written and `None` is returned; with a dead client
`None`; otherwise the result of `create` (`none` = `ElasticsearchException`,
which also returns `None`). -/
def writeback_result (debug esAvailable : Bool) (createRes : Option String) :
    Option String :=
  if debug then none
  else if esAvailable then createRes
  else none

/-- `set_realert(rule_name, timestamp)` (lines 883-889): the cache entry is
assigned, then the silence document is written back; the `writeback` result is
returned. -/
def set_realert (debug esAvailable : Bool) (createRes : Option String)
    (cache : List (String × Int)) (rule_name : String) (timestamp : Int) :
    List (String × Int) × Option String :=
  (dictSet cache rule_name timestamp, writeback_result debug esAvailable createRes)

/-! ## Supporting lemmas -/

theorem dictGet_dictSet_self {α : Type} (d : List (String × α)) (k : String) (v : α) :
    dictGet (dictSet d k v) k = some v := by
  induction d with
  | nil => simp [dictGet, dictSet]
  | cons p t ih =>
    obtain ⟨k', v'⟩ := p
    by_cases h : k' = k <;> simp [dictGet, dictSet, h, ih]

theorem dictGet_dictSet_ne {α : Type} (d : List (String × α)) (k k' : String) (v : α)
    (h : k ≠ k') : dictGet (dictSet d k v) k' = dictGet d k' := by
  induction d with
  | nil => simp [dictGet, dictSet, h]
  | cons p t ih =>
    obtain ⟨k0, v0⟩ := p
    by_cases h0 : k0 = k
    · subst h0; simp [dictGet, dictSet, h]
    · simp [dictGet, dictSet, h0, ih]

theorem dictHas_dictSet {α : Type} (d : List (String × α)) (k k' : String) (v : α) :
    dictHas (dictSet d k v) k' = ((k = k' : Bool) || dictHas d k') := by
  by_cases h : k = k'
  · subst h; simp [dictHas, dictGet_dictSet_self]
  · simp [dictHas, dictGet_dictSet_ne d k k' v h, h]

theorem dictGet_eq_none_of_not_mem_keys {α : Type} (d : List (String × α)) (k : String)
    (h : k ∉ d.map Prod.fst) : dictGet d k = none := by
  induction d with
  | nil => simp [dictGet]
  | cons p t ih =>
    obtain ⟨k0, v0⟩ := p
    simp only [List.map_cons, List.mem_cons] at h
    push_neg at h
    have hk0 : k0 ≠ k := fun he => h.1 he.symm
    simp [dictGet, if_neg hk0, ih h.2]

theorem dictGet_dictDel_self {α : Type} (d : List (String × α)) (k : String)
    (hnd : (d.map Prod.fst).Nodup) : dictGet (dictDel d k) k = none := by
  induction d with
  | nil => simp [dictGet, dictDel]
  | cons p t ih =>
    obtain ⟨k0, v0⟩ := p
    simp only [List.map_cons, List.nodup_cons] at hnd
    by_cases h0 : k0 = k
    · subst h0
      simp only [dictDel, if_pos rfl]
      exact dictGet_eq_none_of_not_mem_keys t k0 hnd.1
    · simp [dictDel, if_neg h0, dictGet, h0, ih hnd.2]

theorem run_rule_chunks_stop (fuel runEvery bufferTime : Nat) (q : Int → Int → Bool)
    (start endtime : Int) (hg : ¬ (bufferTime : Int) < ts_delta start endtime) :
    run_rule_chunks fuel runEvery bufferTime q start endtime =
      (start, [(start, endtime)], q start endtime) := by
  cases fuel <;> rw [run_rule_chunks.eq_def] <;> rw [if_neg hg]

theorem run_rule_chunks_out (runEvery bufferTime : Nat) (q : Int → Int → Bool)
    (start endtime : Int) (hg : (bufferTime : Int) < ts_delta start endtime) :
    run_rule_chunks 0 runEvery bufferTime q start endtime = (start, [], false) := by
  rw [run_rule_chunks.eq_def, if_pos hg]

theorem run_rule_chunks_go (fuel runEvery bufferTime : Nat) (q : Int → Int → Bool)
    (start endtime : Int) (hg : (bufferTime : Int) < ts_delta start endtime) :
    run_rule_chunks (fuel + 1) runEvery bufferTime q start endtime =
      (if q start (ts_add start runEvery) then
        ((run_rule_chunks fuel runEvery bufferTime q (ts_add start runEvery) endtime).1,
          (start, ts_add start runEvery) ::
            (run_rule_chunks fuel runEvery bufferTime q (ts_add start runEvery) endtime).2.1,
          (run_rule_chunks fuel runEvery bufferTime q (ts_add start runEvery) endtime).2.2)
      else (start, [(start, ts_add start runEvery)], false)) := by
  rw [run_rule_chunks.eq_def, if_pos hg]

/-- With a positive `run_every`, fuel `(endtime - start).toNat` — the amount
`run_rule_tick` supplies — already saturates `run_rule_chunks`: adding more
fuel does not change the result, so the fuel-exhaustion branch is never
taken on the program's inputs. -/
theorem run_rule_chunks_fuel_enough (runEvery bufferTime : Nat) (q : Int → Int → Bool)
    (hr : 0 < runEvery) :
    ∀ (fuel : Nat) (start endtime : Int), (ts_delta start endtime).toNat ≤ fuel →
      run_rule_chunks fuel runEvery bufferTime q start endtime =
        run_rule_chunks (fuel + 1) runEvery bufferTime q start endtime := by
  intro fuel
  induction fuel with
  | zero =>
    intro s e hf
    by_cases hg : (bufferTime : Int) < ts_delta s e
    · exfalso
      simp only [ts_delta] at hg hf
      omega
    · rw [run_rule_chunks_stop _ _ _ _ _ _ hg, run_rule_chunks_stop _ _ _ _ _ _ hg]
  | succ f ih =>
    intro s e hf
    by_cases hg : (bufferTime : Int) < ts_delta s e
    · have hf2 : (ts_delta (ts_add s runEvery) e).toNat ≤ f := by
        simp only [ts_delta, ts_add] at *
        omega
      rw [run_rule_chunks_go _ _ _ _ _ _ hg, run_rule_chunks_go _ _ _ _ _ _ hg,
        ih (ts_add s runEvery) e hf2]
    · rw [run_rule_chunks_stop _ _ _ _ _ _ hg, run_rule_chunks_stop _ _ _ _ _ _ hg]


/-! ## Claims -/

/-- Claim C9, counterexample: an Elasticsearch error of 1025 characters is
surfaced as a message longer than 1024 characters (the 1024-character prefix
plus the elision suffix), so "at most 1024 characters long" fails as
stated. -/
theorem c9_error_truncation_counterexample :
    1024 < (truncate_error (List.replicate 1025 'a')).length := by
  have h : (List.replicate 1025 'a').length = 1025 := List.length_replicate 1025 'a'
  have h5 : ("... (".toList).length = 5 := by decide
  have h20 : (" characters removed)".toList).length = 20 := by decide
  unfold truncate_error
  rw [if_pos (by rw [h]; omega)]
  simp only [List.length_append, List.length_take, h, h5, h20]
  have hd : 0 < (Nat.toDigits 10 (1025 - 1024)).length := by decide
  omega

/-- Claim C9 (amended): in every query path the surfaced error keeps at most
the first 1024 characters of the original message — messages of at most 1024
characters pass through unchanged — and the total surfaced length is that
prefix plus a bounded elision suffix `... (N characters removed)`. -/
theorem c9_error_truncation_amended (e : List Char) :
    (truncate_error e).take 1024 = e.take 1024
    ∧ (truncate_error e).length ≤ 1049 + (Nat.toDigits 10 (e.length - 1024)).length
    ∧ (e.length ≤ 1024 → truncate_error e = e) := by
  unfold truncate_error
  by_cases h : 1024 < e.length
  · rw [if_pos h]
    refine ⟨?_, ?_, fun hc => absurd h (by omega)⟩
    · rw [List.take_append_eq_append_take]
      have hlen : (e.take 1024).length = 1024 := by
        rw [List.length_take]; omega
      rw [hlen]
      simp [List.take_take]
    · have h5 : ("... (".toList).length = 5 := by decide
      have h20 : (" characters removed)".toList).length = 20 := by decide
      simp only [List.length_append, List.length_take]
      omega
  · rw [if_neg h]
    exact ⟨rfl, by omega, fun _ => rfl⟩

/-- Claim C9, witness for the amended theorem at a concrete long message. -/
theorem c9_error_truncation_amended_witness :
    (truncate_error (List.replicate 1025 'a')).take 1024 =
        (List.replicate 1025 'a').take 1024
    ∧ (truncate_error (List.replicate 1025 'a')).length ≤
        1049 + (Nat.toDigits 10 ((List.replicate 1025 'a').length - 1024)).length
    ∧ ((List.replicate 1025 'a').length ≤ 1024 →
        truncate_error (List.replicate 1025 'a') = List.replicate 1025 'a') :=
  c9_error_truncation_amended (List.replicate 1025 'a')

/-- Claim C7: the code is at fault.  `DropMatchException` is documented in
`enhancements.py` as the signal for ElastAlert to drop a match, but the
enhancement loop in `alert` (lines 677-682) catches only `EAException`, so the
sentinel escapes `alert` as an uncaught exception instead of silently
discarding the match (first conjunct); an `EAException` is caught and the
match proceeds unmodified (second conjunct). -/
theorem c7_drop_match_uncaught :
    alert_enhancement_phase [fun _ => Except.error PyExc.dropMatch] ["m0"] =
        Except.error PyExc.dropMatch
    ∧ alert_enhancement_phase [fun _ => Except.error PyExc.eaException] ["m0"] =
        Except.ok ["m0"] :=
  ⟨rfl, rfl⟩

/-- Claim C8: a terms-mode query wraps the base filtered query (with `sort`
removed) in a `counts` terms aggregation on the rule's terms field
(`rule['query_key']` in the source, the spec's `terms_key`) with size
`terms_size`, under `aggs.filtered`, issued with `search_type=count`; the
returned buckets are fed to `add_terms_data` keyed by the window's end
time. -/
theorem c8_terms_query_shape (rule : Rule) (s e : Int) (idx : String)
    (bs : List J) :
    (get_hits_terms_request rule s e idx).search_type = "count"
    ∧ (get_hits_terms_request rule s e idx).body =
        J.obj [("aggs", J.obj [("filtered", J.obj
          [("filter", J.obj [("bool", J.obj [("must", J.arr (rule.filter ++
              [J.obj [("range", J.obj [(rule.timestamp_field,
                J.obj [("from", J.num s), ("to", J.num e)])])]]))])]),
           ("aggs", J.obj [("counts", J.obj [("terms", J.obj
              [("field", J.str rule.query_key),
               ("size", J.num rule.terms_size)])])])])])]
    ∧ run_query_terms e (some bs) = (some (e, bs), true) :=
  ⟨rfl, rfl, rfl⟩

/-- Claim C10: `set_realert` puts the silence into the in-memory cache
unconditionally, so even when the writeback fails or is skipped (always in
debug mode) a later in-process `is_silenced` on that key reports the silence
until it expires, while `set_realert` returns the falsy writeback result. -/
theorem c10_set_realert_cache_first (debug esAvailable : Bool)
    (createRes : Option String) (cache : List (String × Int))
    (store : Option (List SilenceRec)) (key : String) (untilT now : Int)
    (h : now < untilT) :
    (is_silenced (set_realert debug esAvailable createRes cache key untilT).1
        store now key).1 = true
    ∧ (set_realert debug esAvailable createRes cache key untilT).2 =
        writeback_result debug esAvailable createRes
    ∧ (debug = true →
        (set_realert debug esAvailable createRes cache key untilT).2 = none) := by
  refine ⟨?_, rfl, fun hd => by simp [set_realert, writeback_result, hd]⟩
  have hget : dictGet (dictSet cache key untilT) key = some untilT :=
    dictGet_dictSet_self cache key untilT
  simp only [set_realert, is_silenced, hget]
  rw [if_pos (show ts_delta untilT now < 0 by simp only [ts_delta]; omega)]

/-- Claim C10, witness: debug mode, silence until 10 checked at time 3. -/
theorem c10_set_realert_cache_first_witness :
    (is_silenced (set_realert true false none [] "r" 10).1 none 3 "r").1 = true :=
  (c10_set_realert_cache_first true false none [] none "r" 10 3 (by decide)).1

/-- Claim C6: for a silence key whose recorded expiry (cached value, else the
newest persisted silence) is `u`, `is_silenced` reports silenced exactly while
`now < u`; once `u ≤ now` it reports false and the key is absent from the
updated cache (an expired cached entry is evicted); an uncached active silence
populates the cache with `u`. -/
theorem c6_is_silenced_spec (cache : List (String × Int)) (recs : List SilenceRec)
    (now : Int) (key : String) (u : Int)
    (hnd : (cache.map Prod.fst).Nodup)
    (hu : silence_expiry cache recs key = some u) :
    ((is_silenced cache (some recs) now key).1 = true ↔ now < u)
    ∧ (u ≤ now → dictGet (is_silenced cache (some recs) now key).2 key = none)
    ∧ (now < u → dictGet (is_silenced cache (some recs) now key).2 key = some u) := by
  cases hc : dictGet cache key with
  | some u0 =>
    have hu0 : u0 = u := by
      simp only [silence_expiry, hc, Option.some.injEq] at hu
      exact hu
    subst hu0
    by_cases hlt : now < u0
    · have hts : ts_delta u0 now < 0 := by simp only [ts_delta]; omega
      simp only [is_silenced, hc, if_pos hts]
      exact ⟨by simpa using hlt, fun hle => absurd hle (by omega), fun _ => by simp [hc]⟩
    · have hts : ¬ ts_delta u0 now < 0 := by simp only [ts_delta]; omega
      simp only [is_silenced, hc, if_neg hts]
      exact ⟨by simpa using hlt, fun _ => dictGet_dictDel_self cache key hnd,
        fun hl => absurd hl hlt⟩
  | none =>
    cases hn : newest_silence recs key with
    | none =>
      exfalso
      simp [silence_expiry, hc, hn] at hu
    | some rec =>
      have hru : rec.untilTs = u := by
        simp only [silence_expiry, hc, hn, Option.map_some', Option.some.injEq] at hu
        exact hu
      by_cases hlt : now < u
      · have hts : ts_delta rec.untilTs now < 0 := by
          simp only [ts_delta]; omega
        simp only [is_silenced, hc, hn, if_pos hts]
        refine ⟨by simpa using hlt, fun hle => absurd hle (by omega), fun _ => ?_⟩
        rw [hru]
        exact dictGet_dictSet_self cache key u
      · have hts : ¬ ts_delta rec.untilTs now < 0 := by
          simp only [ts_delta]; omega
        simp only [is_silenced, hc, hn, if_neg hts]
        exact ⟨by simpa using hlt, fun _ => by simp [hc], fun hl => absurd hl hlt⟩

/-- Claim C6, witness: a cached silence until 5 queried at time 3. -/
theorem c6_is_silenced_spec_witness :
    ((is_silenced [("r", 5)] (some []) 3 "r").1 = true ↔ (3 : Int) < 5)
    ∧ ((5 : Int) ≤ 3 → dictGet (is_silenced [("r", 5)] (some []) 3 "r").2 "r" = none)
    ∧ ((3 : Int) < 5 → dictGet (is_silenced [("r", 5)] (some []) 3 "r").2 "r" = some 5) :=
  c6_is_silenced_spec [("r", 5)] [] 3 "r" 5 (by decide) rfl

/-- Claim C1: the code is at fault.  The overrun `continue` at line 545 of
`start` skips the `starttime = None` at line 548 (commented "Only force
starttime once"), so the tick after an overrun runs the rule with the forced
`--start` again, resetting `rule['starttime']` from its advanced value back
to the forced start.  Concretely: tick 1 (forced start 0, buffer 3,
run_every 2, all queries succeed, evaluated at time 9) finishes with
checkpoint 6 and, having overrun, keeps the forced start; tick 2 (one
transient query failure at time 11) then ends with checkpoint 0 < 6 and no
status record, violating monotonicity. -/
theorem c1_forced_start_reset_after_overrun :
    scheduler_tick 2 3 none (fun _ _ => true) 9 9 true (some 0) none =
        (some 0, 6, true)
    ∧ scheduler_tick 2 3 none (fun _ _ => false) 11 11 false (some 0) (some 6) =
        (none, 0, false)
    ∧ (0 : Int) < 6 := by decide

theorem run_rule_chunks_fail (runEvery bufferTime : Nat) (q : Int → Int → Bool)
    (e : Int) (hr : 0 < runEvery) :
    ∀ (j fuel : Nat) (s : Int), j < fuel →
      (bufferTime : Int) < ts_delta (s + (j : Int) * (runEvery : Int)) e →
      (∀ i : Nat, i < j →
        q (s + (i : Int) * (runEvery : Int)) (s + ((i : Int) + 1) * (runEvery : Int)) = true) →
      q (s + (j : Int) * (runEvery : Int)) (s + ((j : Int) + 1) * (runEvery : Int)) = false →
      run_rule_chunks fuel runEvery bufferTime q s e =
        (s + (j : Int) * (runEvery : Int), chunkList s runEvery (j + 1), false) := by
  intro j
  induction j with
  | zero =>
    intro fuel s hf hj hpre hfail
    obtain ⟨f, rfl⟩ : ∃ f, fuel = f + 1 := ⟨fuel - 1, by omega⟩
    have hg : (bufferTime : Int) < ts_delta s e := by
      simpa using hj
    rw [run_rule_chunks_go _ _ _ _ _ _ hg]
    have hq : q s (ts_add s runEvery) = false := by
      have h0 : ((0 : Nat) : Int) * (runEvery : Int) = 0 := by push_cast; ring
      have e1 : s + ((0 : Nat) : Int) * (runEvery : Int) = s := by rw [h0]; ring
      have e2 : s + (((0 : Nat) : Int) + 1) * (runEvery : Int) = ts_add s runEvery := by
        simp only [ts_add]; push_cast; ring
      rw [e1, e2] at hfail
      exact hfail
    rw [hq]
    have e1 : s + ((0 : Nat) : Int) * (runEvery : Int) = s := by push_cast; ring
    rw [e1]
    simp [chunkList, ts_add]
  | succ j ih =>
    intro fuel s hf hj hpre hfail
    obtain ⟨f, rfl⟩ : ∃ f, fuel = f + 1 := ⟨fuel - 1, by omega⟩
    have hjr : (0 : Int) ≤ ((j : Int) + 1) * (runEvery : Int) := by positivity
    have hg : (bufferTime : Int) < ts_delta s e := by
      simp only [ts_delta] at hj ⊢
      push_cast at hj
      nlinarith
    rw [run_rule_chunks_go _ _ _ _ _ _ hg]
    have hq0 : q s (ts_add s runEvery) = true := by
      have h0 := hpre 0 (by omega)
      have e1 : s + ((0 : Nat) : Int) * (runEvery : Int) = s := by push_cast; ring
      have e2 : s + (((0 : Nat) : Int) + 1) * (runEvery : Int) = ts_add s runEvery := by
        simp only [ts_add]; push_cast; ring
      rw [e1, e2] at h0
      exact h0
    rw [hq0]
    simp only [if_true]
    have hjx : (bufferTime : Int) <
        ts_delta ((s + (runEvery : Int)) + (j : Int) * (runEvery : Int)) e := by
      have e1 : (s + (runEvery : Int)) + (j : Int) * (runEvery : Int) =
          s + (((j + 1 : Nat) : Int)) * (runEvery : Int) := by push_cast; ring
      rw [e1]; exact hj
    have hprex : ∀ i : Nat, i < j →
        q ((s + (runEvery : Int)) + (i : Int) * (runEvery : Int))
          ((s + (runEvery : Int)) + ((i : Int) + 1) * (runEvery : Int)) = true := by
      intro i hi
      have e1 : (s + (runEvery : Int)) + (i : Int) * (runEvery : Int) =
          s + (((i + 1 : Nat) : Int)) * (runEvery : Int) := by push_cast; ring
      have e2 : (s + (runEvery : Int)) + ((i : Int) + 1) * (runEvery : Int) =
          s + ((((i + 1 : Nat) : Int)) + 1) * (runEvery : Int) := by push_cast; ring
      rw [e1, e2]
      exact hpre (i + 1) (by omega)
    have hfailx : q ((s + (runEvery : Int)) + (j : Int) * (runEvery : Int))
        ((s + (runEvery : Int)) + ((j : Int) + 1) * (runEvery : Int)) = false := by
      have e1 : (s + (runEvery : Int)) + (j : Int) * (runEvery : Int) =
          s + (((j + 1 : Nat) : Int)) * (runEvery : Int) := by push_cast; ring
      have e2 : (s + (runEvery : Int)) + ((j : Int) + 1) * (runEvery : Int) =
          s + ((((j + 1 : Nat) : Int)) + 1) * (runEvery : Int) := by push_cast; ring
      rw [e1, e2]
      exact hfail
    have hrec := ih f (s + (runEvery : Int)) (by omega) hjx hprex hfailx
    rw [show ts_add s (runEvery : Int) = s + (runEvery : Int) from rfl, hrec]
    have h1 : (s + (runEvery : Int)) + (j : Int) * (runEvery : Int) =
        s + (((j + 1 : Nat) : Int)) * (runEvery : Int) := by push_cast; ring
    rw [h1]
    rfl

/-- Claim C2: when `run_rule` is given a window with
`end - starttime > buffer_time`, the query loop issues consecutive
`run_every`-sized chunks starting at the checkpoint, and if chunk `j` is the
first to fail the tick aborts at once: exactly chunks `0..j` were issued, the
rule's checkpoint equals the failing chunk's start
`s + j * run_every`, and the per-tick status record is not written. -/
theorem c2_chunk_failure_aborts (runEvery bufferTime : Nat) (q : Int → Int → Bool)
    (s e now : Int) (j : Nat) (recovered : Option Int) (current : Option Int)
    (hr : 0 < runEvery) (hnow : s < now)
    (hj : (bufferTime : Int) < ts_delta (s + (j : Int) * (runEvery : Int)) e)
    (hpre : ∀ i : Nat, i < j →
      q (s + (i : Int) * (runEvery : Int)) (s + ((i : Int) + 1) * (runEvery : Int)) = true)
    (hfail : q (s + (j : Int) * (runEvery : Int))
      (s + ((j : Int) + 1) * (runEvery : Int)) = false) :
    run_rule_tick runEvery bufferTime recovered q now e (some s) current =
      (s + (j : Int) * (runEvery : Int), chunkList s runEvery (j + 1), false) := by
  have hguard : ¬ ts_delta s now ≤ 0 := by simp only [ts_delta]; omega
  have hfuel : j < (ts_delta s e).toNat := by
    have hjr : (j : Int) ≤ (j : Int) * (runEvery : Int) := by
      nlinarith [Int.natCast_nonneg j, (show (1 : Int) ≤ (runEvery : Int) by exact_mod_cast hr)]
    simp only [ts_delta] at hj ⊢
    omega
  simp only [run_rule_tick, if_neg hguard]
  exact run_rule_chunks_fail runEvery bufferTime q e hr j _ s hfuel hj hpre hfail

/-- Claim C2, witness: buffer 3, run_every 2, window `[0, 10]`, queries
succeed below start 2 and the chunk starting at 2 (index 1) fails. -/
theorem c2_chunk_failure_aborts_witness :
    run_rule_tick 2 3 none (fun a _ => decide (a < 2)) 5 10 (some 0) none =
      ((0 : Int) + (1 : Nat) * (2 : Nat), chunkList 0 2 2, false) :=
  c2_chunk_failure_aborts 2 3 (fun a _ => decide (a < 2)) 0 10 5 1 none none
    (by decide) (by decide) (by decide)
    (by intro i hi; interval_cases i; decide) (by decide)

theorem dictHas_fold_record (l : List Hit) :
    ∀ (d : List (String × Int)) (i : String),
      dictHas (l.foldl (fun d2 ev => dictSet d2 ev.id ev.src.ts) d) i =
        (dictHas d i || l.any (fun h => h.id == i)) := by
  induction l with
  | nil => intro d i; simp
  | cons x t ih =>
    intro d i
    simp only [List.foldl_cons, List.any_cons]
    rw [ih, dictHas_dictSet]
    by_cases hx : x.id = i
    · simp [hx]
    · have hxb : (x.id == i) = false := by simp [hx]
      simp [hx, hxb]

theorem dictGet_fold_of_ne (l : List Hit) :
    ∀ (d : List (String × Int)) (i : String), (∀ h ∈ l, h.id ≠ i) →
      dictGet (l.foldl (fun d2 ev => dictSet d2 ev.id ev.src.ts) d) i = dictGet d i := by
  induction l with
  | nil => intro d i _; rfl
  | cons x t ih =>
    intro d i hne
    simp only [List.foldl_cons]
    rw [ih _ i (fun h hm => hne h (List.mem_cons_of_mem x hm))]
    exact dictGet_dictSet_ne d x.id i x.src.ts (hne x (List.mem_cons_self x t))

theorem dictGet_fold_record_mem (l : List Hit) :
    ∀ (d : List (String × Int)) (h : Hit), h ∈ l → (l.map Hit.id).Nodup →
      dictGet (l.foldl (fun d2 ev => dictSet d2 ev.id ev.src.ts) d) h.id =
        some h.src.ts := by
  induction l with
  | nil => intro d h hm; exact absurd hm (List.not_mem_nil h)
  | cons x t ih =>
    intro d h hm hnd
    simp only [List.map_cons, List.nodup_cons] at hnd
    rcases List.mem_cons.mp hm with rfl | hmt
    · simp only [List.foldl_cons]
      rw [dictGet_fold_of_ne t _ h.id
        (fun h2 hm2 he => hnd.1 (he ▸ List.mem_map_of_mem Hit.id hm2))]
      exact dictGet_dictSet_self d h.id h.src.ts
    · simp only [List.foldl_cons]
      exact ih _ h hmt hnd.2

/-- Claim C3, counterexample: for a rule carrying its own
`max_query_size = 5` under a global `max_query_size = 10`, the search issued
by `get_hits` has size 10, not the rule's 5 (the rule-level value only feeds
the ceiling warning at line 287), so "size equal to the rule's
max_query_size" fails as stated. -/
theorem c3_search_size_counterexample :
    (get_hits_request 10 ⟨"r", [], "@timestamp", "doc", [], some 5, 5, "k"⟩
        0 1 "idx").size ≠
      rule_max_size ⟨"r", [], "@timestamp", "doc", [], some 5, 5, "k"⟩ 10 := by
  decide

/-- Claim C3 (amended): in hits mode the search is issued with size equal to
the engine-wide `max_query_size`; every returned hit whose `_id` is already in
`processed_hits` is discarded; the surviving hits' `_source`s, in returned
order, are exactly what `add_data` receives (not called when none survive);
and the surviving ids are recorded in `processed_hits` mapped to their
timestamps. -/
theorem c3_hits_pipeline_amended (globalMax : Nat) (rule : Rule) (s e : Int)
    (idx : String) (data : List Hit) (ph : List (String × Int))
    (hnd : (data.map Hit.id).Nodup) :
    (get_hits_request globalMax rule s e idx).size = globalMax
    ∧ (run_query_hits (some data) ph).1 =
        (if (data.filter (fun h => !(dictHas ph h.id))).isEmpty then none
         else some ((data.filter (fun h => !(dictHas ph h.id))).map Hit.src))
    ∧ (∀ i, dictHas (run_query_hits (some data) ph).2.1 i =
        (dictHas ph i || data.any (fun h => h.id == i)))
    ∧ (∀ h, h ∈ data → dictHas ph h.id = false →
        dictGet (run_query_hits (some data) ph).2.1 h.id = some h.src.ts) := by
  by_cases hde : data.isEmpty
  · have hd : data = [] := List.isEmpty_iff.mp hde
    subst hd
    refine ⟨rfl, by simp [run_query_hits], fun i => by simp [run_query_hits],
      fun h hm => absurd hm (List.not_mem_nil h)⟩
  · have hrq : run_query_hits (some data) ph =
        (if ((data.filter (fun h => !(dictHas ph h.id))).map Hit.src).isEmpty then none
         else some ((data.filter (fun h => !(dictHas ph h.id))).map Hit.src),
         (data.filter (fun h => !(dictHas ph h.id))).foldl
           (fun d ev => dictSet d ev.id ev.src.ts) ph,
         true) := by
      simp only [run_query_hits, remove_duplicate_events, hde]
      rfl
    refine ⟨rfl, ?_, ?_, ?_⟩
    · rw [hrq]
      cases hflt : data.filter (fun h => !(dictHas ph h.id)) <;> simp
    · intro i
      rw [hrq]
      simp only
      rw [dictHas_fold_record]
      by_cases hpi : dictHas ph i
      · simp [hpi]
      · simp only [hpi, Bool.false_or]
        have hbo : ∀ b1 b2 : Bool, (b1 ↔ b2) → b1 = b2 := by
          intro b1 b2 hb; cases b1 <;> cases b2 <;> simp_all
        apply hbo
        simp only [List.any_eq_true, List.mem_filter]
        constructor
        · rintro ⟨h, ⟨hm, _⟩, hid⟩
          exact ⟨h, hm, hid⟩
        · rintro ⟨h, hm, hid⟩
          refine ⟨h, ⟨hm, ?_⟩, hid⟩
          have : h.id = i := by simpa [beq_iff_eq] using hid
          simp only [this]
          simp only [Bool.eq_false_iff.mpr] at hpi ⊢
          simp [hpi]
    · intro h hm hph
      rw [hrq]
      simp only
      have hmem : h ∈ data.filter (fun h2 => !(dictHas ph h2.id)) :=
        List.mem_filter.mpr ⟨hm, by simp [hph]⟩
      apply dictGet_fold_record_mem
      · exact hmem
      · exact ((List.filter_sublist data).map Hit.id).nodup hnd

/-- Claim C3, witness for the amended theorem: two hits, one already
processed. -/
theorem c3_hits_pipeline_amended_witness :
    (run_query_hits (some [⟨"a", ⟨1, "x"⟩⟩, ⟨"b", ⟨2, "y"⟩⟩]) [("a", 0)]).1 =
        (if (([⟨"a", ⟨1, "x"⟩⟩, ⟨"b", ⟨2, "y"⟩⟩] : List Hit).filter
              (fun h => !(dictHas [("a", 0)] h.id))).isEmpty then none
         else some ((([⟨"a", ⟨1, "x"⟩⟩, ⟨"b", ⟨2, "y"⟩⟩] : List Hit).filter
              (fun h => !(dictHas [("a", 0)] h.id))).map Hit.src)) :=
  (c3_hits_pipeline_amended 7 ⟨"r", [], "@timestamp", "doc", [], none, 5, "k"⟩ 0 1 "idx"
    [⟨"a", ⟨1, "x"⟩⟩, ⟨"b", ⟨2, "y"⟩⟩] [("a", 0)] (by decide)).2.1

/-- Claim C4, counterexample: at the boundary `fire_at = match.timestamp`
(pending id "A", `fire_at = 100`, match at 100, successful persistence
returning "B") the code takes the else-branch of line 833's strict `<`: the
match is persisted with `aggregate_id = "A"`, the pending id stays "A" and
`fire_at` stays 100 — no new window is opened, contrary to the claim's
"expired when fire_at ≤ match.timestamp". -/
theorem c4_aggregation_boundary_counterexample :
    add_aggregated_alert (fun _ => some "B") ⟨"r", "info", 100⟩ ⟨100, "m"⟩
        ⟨some "A", some 100, []⟩ =
      some (⟨some "A", some 100, []⟩, some "B",
        { rule_name := "r", match_body := "m", alert_info := "info",
          alert_sent := false, alert_time := 100, alert_exception := none,
          aggregate_id := some "A" }) := by
  decide

/-- Claim C4 (amended): in `add_aggregated_alert`, if the rule has no pending
aggregate, or the pending window has expired with `fire_at < match.timestamp`
(strictly), a new window is opened with `fire_at = match.timestamp +
aggregation` and the match is persisted with `alert_sent = false` and no
`aggregate_id`, the returned record id becoming the new pending id; otherwise
(`match.timestamp ≤ fire_at`) the match is persisted with `aggregate_id` equal
to the existing pending id and `alert_sent = false`; whenever persistence
fails the raw match is buffered in `agg_matches`. -/
theorem c4_add_aggregated_alert_amended (wb : AlertBody → Option String)
    (rule : AggRule) (m : MatchDoc) (s : AggState) :
    ((s.current_aggregate_id = none ∨
        ∃ aid ft, s.current_aggregate_id = some aid ∧
          s.aggregate_alert_time = some ft ∧ ft < m.ts) →
      ∃ s2 res body, add_aggregated_alert wb rule m s = some (s2, res, body)
        ∧ body.alert_sent = false
        ∧ body.aggregate_id = none
        ∧ body.alert_time = m.ts + rule.aggregation
        ∧ body.match_body = m.body
        ∧ s2.aggregate_alert_time = some (m.ts + rule.aggregation)
        ∧ res = wb body
        ∧ (∀ rid, wb body = some rid →
            s2.current_aggregate_id = some rid ∧ s2.agg_matches = s.agg_matches)
        ∧ (wb body = none → s2.agg_matches = s.agg_matches ++ [m]
            ∧ s2.current_aggregate_id = s.current_aggregate_id))
    ∧ (∀ aid ft, s.current_aggregate_id = some aid →
        s.aggregate_alert_time = some ft → ¬ ft < m.ts →
      ∃ s2 res body, add_aggregated_alert wb rule m s = some (s2, res, body)
        ∧ body.alert_sent = false
        ∧ body.aggregate_id = some aid
        ∧ body.alert_time = ft
        ∧ body.match_body = m.body
        ∧ res = wb body
        ∧ s2.current_aggregate_id = some aid
        ∧ s2.aggregate_alert_time = some ft
        ∧ (∀ rid, wb body = some rid → s2.agg_matches = s.agg_matches)
        ∧ (wb body = none → s2.agg_matches = s.agg_matches ++ [m])) := by
  constructor
  · rintro (hid | ⟨aid, ft, hid, hft, hlt⟩)
    · simp only [add_aggregated_alert, hid]
      cases hw : wb (get_alert_body rule m false (m.ts + rule.aggregation) none) with
      | none =>
        refine ⟨_, _, _, rfl, rfl, rfl, rfl, rfl, rfl, hw.symm, ?_, ?_⟩
        · intro rid hrid; rw [hw] at hrid; exact absurd hrid (by simp)
        · intro _; exact ⟨rfl, rfl⟩
      | some rid0 =>
        refine ⟨_, _, _, rfl, rfl, rfl, rfl, rfl, rfl, hw.symm, ?_, ?_⟩
        · intro rid hrid
          rw [hw] at hrid
          have hrr : rid0 = rid := by injection hrid
          subst hrr
          exact ⟨rfl, rfl⟩
        · intro hn; rw [hw] at hn; exact absurd hn (by simp)
    · simp only [add_aggregated_alert, hid, hft, if_pos hlt]
      cases hw : wb (get_alert_body rule m false (m.ts + rule.aggregation) none) with
      | none =>
        refine ⟨_, _, _, rfl, rfl, rfl, rfl, rfl, rfl, hw.symm, ?_, ?_⟩
        · intro rid hrid; rw [hw] at hrid; exact absurd hrid (by simp)
        · intro _; exact ⟨rfl, rfl⟩
      | some rid0 =>
        refine ⟨_, _, _, rfl, rfl, rfl, rfl, rfl, rfl, hw.symm, ?_, ?_⟩
        · intro rid hrid
          rw [hw] at hrid
          have hrr : rid0 = rid := by injection hrid
          subst hrr
          exact ⟨rfl, rfl⟩
        · intro hn; rw [hw] at hn; exact absurd hn (by simp)
  · intro aid ft hid hft hnlt
    simp only [add_aggregated_alert, hid, hft, if_neg hnlt]
    cases hw : wb { get_alert_body rule m false ft none with aggregate_id := some aid } with
    | none =>
      refine ⟨_, _, _, rfl, rfl, rfl, rfl, rfl, hw.symm, rfl, rfl, ?_, ?_⟩
      · intro rid hrid; rw [hw] at hrid; exact absurd hrid (by simp)
      · intro _; rfl
    | some rid0 =>
      refine ⟨_, _, _, rfl, rfl, rfl, rfl, rfl, hw.symm, hid, hft, ?_, ?_⟩
      · intro _ _; rfl
      · intro hn; rw [hw] at hn; exact absurd hn (by simp)

/-- Claim C4, witness for the amended theorem: no pending aggregate,
persistence succeeds with id "B". -/
theorem c4_add_aggregated_alert_amended_witness :
    ∃ s2 res body,
      add_aggregated_alert (fun _ => some "B") ⟨"r", "i", 50⟩ ⟨10, "m"⟩
          ⟨none, none, []⟩ = some (s2, res, body)
      ∧ body.alert_sent = false
      ∧ body.aggregate_id = none
      ∧ body.alert_time = (10 : Int) + 50
      ∧ body.match_body = "m"
      ∧ s2.aggregate_alert_time = some ((10 : Int) + 50)
      ∧ res = (fun _ => some "B") body
      ∧ (∀ rid, (fun _ => some "B") body = some rid →
          s2.current_aggregate_id = some rid ∧
            s2.agg_matches = (⟨none, none, []⟩ : AggState).agg_matches)
      ∧ ((fun _ => some "B") body = none →
          s2.agg_matches = (⟨none, none, []⟩ : AggState).agg_matches ++ [⟨10, "m"⟩]
          ∧ s2.current_aggregate_id = (⟨none, none, []⟩ : AggState).current_aggregate_id) :=
  (c4_add_aggregated_alert_amended (fun _ => some "B") ⟨"r", "i", 50⟩ ⟨10, "m"⟩
    ⟨none, none, []⟩).1 (Or.inl rfl)

/-- Claim C5, counterexample: a pending AlertRecord with
`alert_time = now = 100` is returned by `find_recent_pending_alerts` (its
`alert_time` lies in `[now - limit, now]`), yet `ts_delta(alert_time, now) > 0`
is false at the boundary, so the record is not delivered and stays in the
store — the claim's "delivered iff alert_time ≤ now" fails at
`alert_time = now`. -/
theorem c5_due_boundary_counterexample :
    find_recent_pending_alerts [⟨"id1", some "r", some 100, some "mb", none, false⟩]
        100 50 = [⟨"id1", some "r", some 100, some "mb", none, false⟩]
    ∧ process_pending ["r"] 100 ⟨"id1", some "r", some 100, some "mb", none, false⟩
        [⟨"id1", some "r", some 100, some "mb", none, false⟩] =
      some ([⟨"id1", some "r", some 100, some "mb", none, false⟩], none) := by
  decide

/-- Claim C5 (amended): for a well-formed pending AlertRecord without an
`aggregate_id` whose rule is loaded, the retry loop delivers it iff
`alert_time < now` (strictly); the delivered batch is its own `match_body`
followed by the match bodies of all records whose `aggregate_id` equals its
`_id`; after delivery the record and all those siblings are gone from the
store. -/
theorem c5_pending_alert_disposition_amended (rules : List String) (now : Int)
    (p : AlertRec) (store : List AlertRec) (rn : String) (t : Int) (mb : String)
    (bs : List String)
    (h1 : p.rule_name = some rn) (h2 : p.alert_time = some t)
    (h3 : p.match_body = some mb) (h4 : p.aggregate_id = none)
    (h5 : rules.contains rn = true)
    (h6 : sib_bodies (store.filter (fun r => r.aggregate_id == some p.rid)) = some bs) :
    (¬ t < now → process_pending rules now p store = some (store, none))
    ∧ (t < now → ∃ store2, process_pending rules now p store =
          some (store2, some { rule_name := rn, bodies := mb :: bs, alert_time := t })
        ∧ (∀ r2, r2 ∈ store2 ↔
            r2 ∈ store ∧ r2.aggregate_id ≠ some p.rid ∧ r2.rid ≠ p.rid)) := by
  constructor
  · intro hnl
    have hts : ¬ 0 < ts_delta t now := by simp only [ts_delta]; omega
    simp [process_pending, h1, h2, h3, h4, h5, hts]
  · intro hl
    have hts : 0 < ts_delta t now := by simp only [ts_delta]; omega
    have h5m : rn ∈ rules := List.mem_of_elem_eq_true h5
    refine ⟨(store.filter (fun r => !(r.aggregate_id == some p.rid))).filter
      (fun r => !(r.rid == p.rid)), ?_, ?_⟩
    · simp [process_pending, h1, h2, h3, h4, h5m, hts, h6]
    · intro r2
      simp only [List.mem_filter, Bool.not_eq_eq_eq_not, Bool.not_true, beq_eq_false_iff_ne,
        ne_eq]
      constructor
      · rintro ⟨⟨hm, hagg⟩, hrid⟩
        exact ⟨hm, hagg, hrid⟩
      · rintro ⟨hm, hagg, hrid⟩
        exact ⟨⟨hm, hagg⟩, hrid⟩

/-- Claim C5, witness for the amended theorem: a due record
(`alert_time = 99 < now = 100`) with no siblings. -/
theorem c5_pending_alert_disposition_amended_witness :
    ∃ store2,
      process_pending ["r"] 100 ⟨"id1", some "r", some 99, some "mb", none, false⟩
          [⟨"id1", some "r", some 99, some "mb", none, false⟩] =
        some (store2, some { rule_name := "r", bodies := ["mb"], alert_time := 99 })
      ∧ (∀ r2, r2 ∈ store2 ↔
          r2 ∈ [(⟨"id1", some "r", some 99, some "mb", none, false⟩ : AlertRec)]
          ∧ r2.aggregate_id ≠ some "id1" ∧ r2.rid ≠ "id1") :=
  (c5_pending_alert_disposition_amended ["r"] 100
    ⟨"id1", some "r", some 99, some "mb", none, false⟩
    [⟨"id1", some "r", some 99, some "mb", none, false⟩] "r" 99 "mb" []
    rfl rfl rfl rfl (by decide) (by decide)).2 (by decide)

end ElastAlert
